import Mathlib

/-!
Verification development for the yt-wav-converter repository (src/app.py).

The Python source is shallowly embedded: pure string manipulation is
translated to functions on List Char / String, the Flask request handlers
become functions from an explicit environment (capturing the results of the
external yt-dlp and filesystem calls) to an HTTP response value, and Python
exceptions become explicit sum types.  Character classes of the Python
regular expressions are modelled over the ASCII range (the repository only
ever feeds them video titles and filenames).
-/

/-- Python whitespace class, as matched by the regex class \s and by
str.strip / str.split: space, tab, newline, carriage return, vertical tab,
form feed. -/
def isPySpace (c : Char) : Bool :=
  c == ' ' || c == '\t' || c == '\n' || c == '\r' || c == '\x0b' || c == '\x0c'

/-- Python word-character class \w (ASCII part): letters, digits and the
underscore. -/
def isWordChar (c : Char) : Bool := c.isAlphanum || c == '_'

/-- Python str.strip on a character list: drop whitespace from both ends. -/
def stripList (l : List Char) : List Char :=
  ((l.dropWhile isPySpace).reverse.dropWhile isPySpace).reverse

/-- Python str.strip. -/
def pyStrip (s : String) : String := ⟨stripList s.data⟩

/-- Substring test on character lists, modelling the Python `in` operator on
strings. -/
def isSubL (pat : List Char) : List Char → Bool
  | [] => pat.isEmpty
  | c :: rest => pat.isPrefixOf (c :: rest) || isSubL pat rest

/-- Python `needle in hay` for strings. -/
def containsSub (needle hay : String) : Bool := isSubL needle.data hay.data

/-- Fuel-driven worker for replaceAllL; the fuel is always at least the
length of the remaining list, so the fuel-exhausted branch is unreachable. -/
def replaceAllGo (pat rep : List Char) : Nat → List Char → List Char
  | 0, s => s
  | _ + 1, [] => []
  | n + 1, c :: rest =>
    if pat.isEmpty then c :: replaceAllGo pat rep n rest
    else if pat.isPrefixOf (c :: rest) then
      rep ++ replaceAllGo pat rep n (rest.drop (pat.length - 1))
    else c :: replaceAllGo pat rep n rest

/-- Python str.replace: replace every non-overlapping occurrence of pat by
rep, scanning left to right. -/
def replaceAllL (pat rep s : List Char) : List Char := replaceAllGo pat rep s.length s

/-- Python str.replace at String level. -/
def pyReplace (s pat rep : String) : String := ⟨replaceAllL pat.data rep.data s.data⟩

/-- Characters kept by the regex substitution in make_safe_filename
(app.py line 113): re.sub removes every character that is NOT in the class
[^\w\s.-], i.e. it keeps word characters, whitespace, dots and dashes. -/
def pyKeep (c : Char) : Bool := isWordChar c || isPySpace c || c == '.' || c == '-'

/-- The replacement of spaces by underscores in make_safe_filename
(app.py line 115): Python str.replace of the single character ' '. -/
def repSpace (c : Char) : Char := if c == ' ' then '_' else c

/-- Core of make_safe_filename on character lists (app.py lines 110-119):
filter by the regex class, replace spaces by underscores, and fall back to
the literal "audio" when the result is empty. -/
def msfList (l : List Char) : List Char :=
  let rep := (l.filter pyKeep).map repSpace
  if rep.isEmpty then "audio".data else rep

/-- Embedding of make_safe_filename (app.py lines 110-119). -/
def make_safe_filename (s : String) : String := ⟨msfList s.data⟩

/-- Formalisation of the C2 claim sentence, written from the words of the
spec (section 4.1): remove every character that is not alphanumeric,
whitespace, a dot, or a dash; replace each remaining whitespace RUN by a
single underscore; return the literal "audio" when empty.  This definition
exists to be compared against make_safe_filename, which is embedded from
the source. -/
def collapseWsAux : Bool → List Char → List Char
  | _, [] => []
  | inRun, c :: rest =>
    if isPySpace c then
      (if inRun then collapseWsAux true rest else '_' :: collapseWsAux true rest)
    else c :: collapseWsAux false rest

/-- Claim-text sanitizer for C2, see collapseWsAux. -/
def sanitizeSpecC2 (s : String) : String :=
  let kept := s.data.filter (fun c => c.isAlphanum || isPySpace c || c == '.' || c == '-')
  let collapsed := collapseWsAux false kept
  if collapsed.isEmpty then "audio" else ⟨collapsed⟩

/-- Amended description of make_safe_filename, written from the amended
claim text: keep word characters (alphanumeric or underscore), whitespace,
dots and dashes; replace each single space character by an underscore,
leaving all other whitespace untouched; return "audio" when the result is
empty. -/
def sanitizeAmendC2 (s : String) : String :=
  let u := (s.data.filter (fun c => (c.isAlphanum || c == '_') || isPySpace c || c == '.' || c == '-')).map
    (fun c => if c == ' ' then '_' else c)
  if u.isEmpty then "audio" else ⟨u⟩

/-!
URL identifier parser (extract_video_id, app.py lines 126-137).

The source tries two regular expressions with re.search and re.IGNORECASE:

  pattern 1:  (?:youtube\.com/watch\?v=|youtu\.be/|youtube\.com/embed/|
               youtube\.com/v/|youtube\.com/watch/\?v=)([^&\n?#]*)
  pattern 2:  (?:youtube\.com/watch\?.*&v=([^&#]*))

and returns group 1 of the first pattern that matches, else None.  The
embedding implements exactly these two searches: case-insensitive literal
alternatives tried in order at each position from the left (the capturing
star always succeeds, so the leftmost position with a matching alternative
wins), and for the second pattern a greedy dot-star that cannot cross a
newline, so the LAST occurrence of the literal &v= inside the current line
supplies the capture.
-/

/-- Case-insensitive literal prefix match (re.IGNORECASE). -/
def ciPrefix : List Char → List Char → Bool
  | [], _ => true
  | _ :: _, [] => false
  | p :: ps, c :: cs => (p.toLower == c.toLower) && ciPrefix ps cs

/-- Characters allowed in the capture group of pattern 1: the class
[^&\n?#]. -/
def goodCap (c : Char) : Bool := !(c == '&' || c == '\n' || c == '?' || c == '#')

/-- Characters allowed in the capture group of pattern 2: the class
[^&#]. -/
def goodCap2 (c : Char) : Bool := !(c == '&' || c == '#')

/-- Alternative 1 of pattern 1. -/
def pWatch : List Char :=
  ['y', 'o', 'u', 't', 'u', 'b', 'e', '.', 'c', 'o', 'm', '/', 'w', 'a', 't', 'c', 'h', '?', 'v', '=']

/-- Alternative 2 of pattern 1. -/
def pShort : List Char := ['y', 'o', 'u', 't', 'u', '.', 'b', 'e', '/']

/-- Alternative 3 of pattern 1. -/
def pEmbed : List Char :=
  ['y', 'o', 'u', 't', 'u', 'b', 'e', '.', 'c', 'o', 'm', '/', 'e', 'm', 'b', 'e', 'd', '/']

/-- Alternative 4 of pattern 1. -/
def pV : List Char := ['y', 'o', 'u', 't', 'u', 'b', 'e', '.', 'c', 'o', 'm', '/', 'v', '/']

/-- Alternative 5 of pattern 1. -/
def pWatchSlash : List Char :=
  ['y', 'o', 'u', 't', 'u', 'b', 'e', '.', 'c', 'o', 'm', '/', 'w', 'a', 't', 'c', 'h', '/', '?', 'v', '=']

/-- Try one alternative of pattern 1 at the current position; on success the
capture is the longest run of characters from the class [^&\n?#] after the
literal. -/
def tryCIPrefix (p s : List Char) : Option (List Char) :=
  if ciPrefix p s then some ((s.drop p.length).takeWhile goodCap) else none

/-- Try all five alternatives of pattern 1 at the current position; regex
alternation tries them in written order. -/
def matchP1At (s : List Char) : Option (List Char) :=
  match tryCIPrefix pWatch s with
  | some cap => some cap
  | none =>
    match tryCIPrefix pShort s with
    | some cap => some cap
    | none =>
      match tryCIPrefix pEmbed s with
      | some cap => some cap
      | none =>
        match tryCIPrefix pV s with
        | some cap => some cap
        | none => tryCIPrefix pWatchSlash s

/-- re.search for pattern 1: scan positions from the left, first match
wins. -/
def searchP1 : List Char → Option (List Char)
  | [] => none
  | c :: rest =>
    match matchP1At (c :: rest) with
    | some cap => some cap
    | none => searchP1 rest

/-- Literal prefix of pattern 2. -/
def pWatchQ : List Char :=
  ['y', 'o', 'u', 't', 'u', 'b', 'e', '.', 'c', 'o', 'm', '/', 'w', 'a', 't', 'c', 'h', '?']

/-- Literal matched after the greedy dot-star of pattern 2. -/
def ampV : List Char := ['&', 'v', '=']

/-- Greedy dot-star then &v= then capture: the dot-star cannot cross a
newline, and greediness makes the last occurrence of &v= before the next
newline supply the capture, which may itself run past the newline. -/
def lastAmpV : List Char → Option (List Char)
  | [] => none
  | c :: rest =>
    if c == '\n' then none
    else
      match lastAmpV rest with
      | some cap => some cap
      | none =>
        if ciPrefix ampV (c :: rest) then some ((rest.drop 2).takeWhile goodCap2) else none

/-- Pattern 2 at the current position. -/
def matchP2At (s : List Char) : Option (List Char) :=
  if ciPrefix pWatchQ s then lastAmpV (s.drop pWatchQ.length) else none

/-- re.search for pattern 2. -/
def searchP2 : List Char → Option (List Char)
  | [] => none
  | c :: rest =>
    match matchP2At (c :: rest) with
    | some cap => some cap
    | none => searchP2 rest

/-- Embedding of extract_video_id (app.py lines 126-137): try pattern 1,
then pattern 2, and return the first capture, or none. -/
def extract_video_id (url : String) : Option String :=
  match searchP1 url.data with
  | some cap => some ⟨cap⟩
  | none =>
    match searchP2 url.data with
    | some cap => some ⟨cap⟩
    | none => none

/-!
Best-audio stream selection (download_audio, app.py lines 182-202).
-/

/-- One yt-dlp format dictionary, restricted to the keys the handler reads.
A missing key is an Option none; fmt.get(\x27abr\x27) may legitimately be null. -/
structure FmtInfo where
  format_id : String
  vcodec : Option String
  abr : Option Int
  deriving DecidableEq

/-- The audio-only test of the source: fmt.get(\x27vcodec\x27) == \x27none\x27. -/
def isAudioOnly (f : FmtInfo) : Bool := f.vcodec == some "none"

/-- The first selection loop of download_audio (app.py lines 185-191): keep
the format with the strictly highest known bitrate seen so far, starting
from best_format = None and max_abr = 0. -/
def loop1 : List FmtInfo → Option FmtInfo → Int → Option FmtInfo × Int
  | [], bf, m => (bf, m)
  | f :: rest, bf, m =>
    if isAudioOnly f then
      match f.abr with
      | some a => if bf = none ∨ a > m then loop1 rest (some f) a else loop1 rest bf m
      | none => loop1 rest bf m
    else loop1 rest bf m

/-- The whole selection (app.py lines 182-199): the strict-maximum loop,
then the fallback loop that takes the first audio-only format (with
max_abr = fmt.get(\x27abr\x27, 0)) when no format reported a bitrate. -/
def findBestAudio (fmts : List FmtInfo) : Option FmtInfo × Int :=
  match loop1 fmts none 0 with
  | (some bf, m) => (some bf, m)
  | (none, _) =>
    match fmts.find? isAudioOnly with
    | some f => (some f, f.abr.getD 0)
    | none => (none, 0)

/-!
The POST /download handler (download_audio, app.py lines 166-274).
-/

/-- Exceptions that can escape the yt-dlp calls: DownloadError (caught and
classified by message content) and everything else (caught by the generic
except clause). -/
inductive PyExc where
  | downloadError (msg : String)
  | otherError (msg : String)
  deriving DecidableEq

/-- The fields of the yt-dlp info dictionary that the handler reads, each
optional because the source always goes through info.get with a default. -/
structure ExtractInfo where
  formats : List FmtInfo
  title : Option String
  uploader : Option String
  id : Option String
  duration : Option Nat
  deriving DecidableEq

/-- Environment of one request: the outcomes of every external call the
handler makes.  extractResult is keyed by the (stripped) URL passed to
ydl.extract_info; downloadResult is the outcome of ydl.download; listdir
is the scratch-directory listing used by the post-download scan; getsize
gives the size in bytes of a named file, none meaning the OSError raised
for a missing file; timestamp is str(int(time.time())), the default video
id. -/
structure Env where
  extractResult : String → Except PyExc ExtractInfo
  downloadResult : Option PyExc
  listdir : List String
  getsize : String → Option Nat
  timestamp : String

/-- JSON values appearing in the response bodies.  A dec2 value is a
decimal number with two fraction digits stored as hundredths, used for the
rounded size_mb field. -/
inductive JVal where
  | s (v : String)
  | n (v : Nat)
  | dec2 (hundredths : Nat)
  deriving DecidableEq

/-- An HTTP response: status code plus JSON object body given as an ordered
field list. -/
structure HttpResponse where
  status : Nat
  body : List (String × JVal)
  deriving DecidableEq

/-- The JSON error envelope with a status code. -/
def errResp (status : Nat) (msg : String) : HttpResponse := ⟨status, [("error", JVal.s msg)]⟩

/-- The DownloadError classification of app.py lines 259-269, keyed on
substring tests against the exception message. -/
def classifyResp (m : String) : HttpResponse :=
  if containsSub "Private video" m then
    errResp 403 "This video is private and cannot be downloaded"
  else if containsSub "Video unavailable" m then
    errResp 404 "This video is unavailable or restricted"
  else if containsSub "Unsupported URL" m then
    errResp 400 "Unsupported URL. Please provide a valid YouTube URL"
  else errResp 500 "Error downloading video. Please try again later."

/-- Dispatch of a caught exception: DownloadError goes to the classifier
(lines 259-269), anything else to the generic 500 handler (lines 271-274). -/
def handleExc : PyExc → HttpResponse
  | PyExc.downloadError m => classifyResp m
  | PyExc.otherError _ => errResp 500 "An unexpected error occurred. Please try again later."

/-- The inline title and uploader cleaning of app.py lines 205-206:
re.sub removing every character outside [\w\s-] (note: dots are NOT kept
here, unlike in make_safe_filename), followed by str.strip. -/
def cleanPart (s : String) : String :=
  ⟨stripList (s.data.filter (fun c => isWordChar c || isPySpace c || c == '-'))⟩

/-- The final target filename of app.py line 209:
f-string of cleaned title, cleaned uploader and raw video id joined by
" - " with the .wav suffix. -/
def targetFilename (info : ExtractInfo) (ts : String) : String :=
  cleanPart (info.title.getD "audio") ++ " - " ++ cleanPart (info.uploader.getD "unknown") ++
    " - " ++ info.id.getD ts ++ ".wav"

/-- Base name used by the post-download directory scan (app.py line 237):
the target filename with every occurrence of ".wav" removed. -/
def baseNameOf (filename : String) : String := pyReplace filename ".wav" ""

/-- The post-download directory scan (app.py lines 236-241): the first
listed file whose name starts with the base name replaces the output path;
when none matches the original target filename is kept. -/
def scanOutName (listdir : List String) (filename : String) : String :=
  match listdir.find? (fun g => (baseNameOf filename).data.isPrefixOf g.data) with
  | some g => g
  | none => filename

/-- Round-half-to-even division n/d to the nearest integer, the rounding
mode of the Python round builtin. -/
def roundCentsHalfEven (n d : Nat) : Nat :=
  let q := n / d
  let r := n % d
  if 2 * r < d then q else if 2 * r > d then q + 1 else if q % 2 = 0 then q else q + 1

/-- The size computation of app.py lines 244 and 256:
round(bytes / (1024 * 1024), 2), expressed in hundredths of a megabyte. -/
def sizeMbCents (bytes : Nat) : Nat := roundCentsHalfEven (bytes * 100) (1024 * 1024)

/-- The quality string of app.py line 255. -/
def qualityStr (m : Int) : String := if m > 0 then toString m ++ "kbps" else "unknown"

/-- The success response of app.py lines 250-257: six fields, in the order
of the source dictionary. -/
def successBody (info : ExtractInfo) (maxAbr : Int) (outName : String) (bytes : Nat) : HttpResponse :=
  ⟨200,
    [("filename", JVal.s outName),
     ("title", JVal.s (info.title.getD "audio")),
     ("uploader", JVal.s (info.uploader.getD "unknown")),
     ("duration", JVal.n (info.duration.getD 0)),
     ("quality", JVal.s (qualityStr maxAbr)),
     ("size_mb", JVal.dec2 (sizeMbCents bytes))]⟩

/-- Embedding of the POST /download handler (app.py lines 166-274).  The
request body is an optional JSON object of string fields (none models a
missing or null body, the empty list the falsy empty object).  Control
flow follows the source: validation, metadata extraction, best-format
selection, filename construction, download, directory scan, size
computation; the two except clauses become handleExc. -/
def download_audio (env : Env) (data : Option (List (String × String))) : HttpResponse :=
  match data with
  | none => errResp 400 "No URL provided"
  | some d =>
    if d.isEmpty then errResp 400 "No URL provided"
    else
      match List.lookup "url" d with
      | none => errResp 400 "No URL provided"
      | some u0 =>
        match env.extractResult (pyStrip u0) with
        | Except.error e => handleExc e
        | Except.ok info =>
          match findBestAudio info.formats with
          | (none, _) => errResp 400 "No suitable audio format found"
          | (some _, maxAbr) =>
            match env.downloadResult with
            | some e => handleExc e
            | none =>
              let outName := scanOutName env.listdir (targetFilename info env.timestamp)
              match env.getsize outName with
              | none => errResp 500 "An unexpected error occurred. Please try again later."
              | some bytes => successBody info maxAbr outName bytes

/-!
The GET /download/(filename) handler (download_file, app.py lines 276-292).

Paths are modelled as lists of segments; the filesystem is the list of
existing regular files, each given by its normalised absolute segment
list.
-/

/-- Split a path string on slashes, discarding empty segments. -/
def splitSlashAux : List Char → List Char → List String
  | acc, [] => [⟨acc.reverse⟩]
  | acc, c :: rest =>
    if c == '/' then ⟨acc.reverse⟩ :: splitSlashAux [] rest else splitSlashAux (c :: acc) rest

/-- Segment list of a path string. -/
def splitSegs (s : String) : List String := (splitSlashAux [] s.data).filter (fun x => x ≠ "")

/-- Whether a path string is absolute. -/
def pathIsAbs (s : String) : Bool :=
  match s.data with
  | [] => false
  | c :: _ => c == '/'

/-- os.path.join(dir, name): an absolute name discards the directory. -/
def joinSegs (dir : List String) (name : String) : List String :=
  if pathIsAbs name then splitSegs name else dir ++ splitSegs name

/-- Path normalisation as done by the filesystem when resolving a path:
single dots vanish and a double dot pops the previous segment (or stays at
the root). -/
def normAux : List String → List String → List String
  | acc, [] => acc.reverse
  | acc, seg :: rest =>
    if seg == "." then normAux acc rest
    else if seg == ".." then normAux (acc.drop 1) rest
    else normAux (seg :: acc) rest

/-- Normalised form of a segment path. -/
def normSegs (l : List String) : List String := normAux [] l

/-- os.path.isfile against the modelled filesystem. -/
def isfile (fs : List (List String)) (p : List String) : Bool := fs.contains (normSegs p)

/-- Whether a requested name escapes the serving directory: it is absolute
or contains a double-dot segment. -/
def isTraversal (name : String) : Bool := pathIsAbs name || (splitSegs name).contains ".."

/-- Responses of the file-serving endpoint: the two plain-text error
responses of the source ("File not found" with 404, "Error serving file"
with 500) and a successful attachment send carrying the resolved path and
the suggested download name. -/
inductive FileResp where
  | notFound
  | serveError
  | attachment (path : List String) (downloadName : String)
  deriving DecidableEq

/-- Modelled from the spec: the Flask/Werkzeug send_from_directory
primitive is an external file-serving component (out of scope per spec
section 1, and described in section 4.6 as rejecting traversal outside the
directory).  It refuses names that are absolute or contain double-dot
segments and raises NotFound — an exception — for them as well as for
missing files; otherwise it sends the file as an attachment with the given
download name. -/
def send_from_directory (fs : List (List String)) (dir : List String) (name : String)
    (downloadName : String) : Option FileResp :=
  if isTraversal name then none
  else if isfile fs (dir ++ splitSegs name) then
    some (FileResp.attachment (dir ++ splitSegs name) downloadName)
  else none

/-- Embedding of download_file (app.py lines 276-292): the isfile guard on
the plainly joined path returns 404; otherwise send_from_directory runs
and any exception it raises is caught by the generic except clause, which
returns the 500 text response. -/
def download_file (fs : List (List String)) (dir : List String) (filename : String) : FileResp :=
  if !(isfile fs (joinSegs dir filename)) then FileResp.notFound
  else
    match send_from_directory fs dir filename (make_safe_filename filename) with
    | some r => r
    | none => FileResp.serveError

/-!
Concrete instances used by witnesses and counterexamples.
-/

/-- Format lists from the spec example in section 8: bitrates 128, 256 and
null. -/
def exC1a : List FmtInfo :=
  [⟨"f1", some "none", some 128⟩, ⟨"f2", some "none", some 256⟩, ⟨"f3", some "none", none⟩]

/-- An all-null-bitrate format list, with a leading video format. -/
def exC1b : List FmtInfo :=
  [⟨"fv", some "h264", some 999⟩, ⟨"f1", some "none", none⟩, ⟨"f2", some "none", none⟩]

/-- A format list with a tie at the maximal bitrate. -/
def exC10 : List FmtInfo :=
  [⟨"f1", some "none", some 128⟩, ⟨"f2", some "none", some 256⟩, ⟨"f3", some "none", some 256⟩]

/-- An extraction result used by the handler witnesses: one audio format,
title T, uploader U, id vid, duration 10. -/
def infoW : ExtractInfo := ⟨[⟨"140", some "none", some 128⟩], some "T", some "U", some "vid", some 10⟩

/-- Environment in which ydl.extract_info raises a generic (non
DownloadError) exception. -/
def envC4 : Env :=
  ⟨fun _ => Except.error (PyExc.otherError "boom"), none, [], fun _ => none, "0"⟩

/-- Environment in which ydl.extract_info raises a DownloadError with a
private-video message. -/
def envC5a : Env :=
  ⟨fun _ => Except.error (PyExc.downloadError "ERROR: Private video"), none, [], fun _ => none, "0"⟩

/-- Environment in which extraction succeeds and ydl.download raises a
DownloadError with an unavailable-video message. -/
def envC5b : Env :=
  ⟨fun _ => Except.ok infoW, some (PyExc.downloadError "ERROR: Video unavailable"), [],
    fun _ => none, "0"⟩

/-- Environment of a fully successful request: extraction succeeds, the
download writes a file of exactly one mebibyte, and the directory listing
is empty so the scan keeps the target filename. -/
def envC7 : Env :=
  ⟨fun _ => Except.ok infoW, none, [], fun _ => some 1048576, "0"⟩

/-- Metadata whose title exercises the difference between the inline
cleaning of the handler and make_safe_filename. -/
def infoC6 : ExtractInfo := ⟨[], some "My Song!.mp3", some "The Band", some "abc123", some 0⟩

/-- Modelled filesystem for the file-server claims: one file inside the
scratch directory and one outside it. -/
def fsC8 : List (List String) := [["srv", "temp_audio", "a.wav"], ["etc", "passwd"]]

/-- The scratch directory of the modelled filesystem. -/
def dirC8 : List String := ["srv", "temp_audio"]

/-- Formalisation of the amended C6 cleaning step, following the amended
claim text: delete every character that is not a word character
(alphanumeric or underscore), whitespace, or a dash — in particular dots
are deleted — then trim surrounding whitespace. -/
def cleanSpecC6 (s : String) : String :=
  ⟨stripList (s.data.filter (fun c => (c.isAlphanum || c == '_') || isPySpace c || c == '-'))⟩

/-!
Theorems.
-/

/-- Helper: repSpace maps kept characters to kept characters. -/
theorem pyKeep_repSpace {c : Char} (h : pyKeep c = true) : pyKeep (repSpace c) = true := by
  by_cases hc : c == ' '
  · have he : c = ' ' := eq_of_beq hc
    subst he
    decide
  · simpa [repSpace, hc] using h

/-- Helper: repSpace is idempotent on characters. -/
theorem repSpace_repSpace (c : Char) : repSpace (repSpace c) = repSpace c := by
  by_cases hc : c == ' '
  · have he : c = ' ' := eq_of_beq hc
    subst he
    decide
  · simp [repSpace, hc]

/-- Helper: the character-list core of make_safe_filename is idempotent. -/
theorem msfList_idem (l : List Char) : msfList (msfList l) = msfList l := by
  by_cases hrep : ((l.filter pyKeep).map repSpace).isEmpty
  · have h1 : msfList l = "audio".data := by simp [msfList, hrep]
    rw [h1]
    decide
  · have h1 : msfList l = (l.filter pyKeep).map repSpace := by simp [msfList, hrep]
    rw [h1]
    have hfilter : ((l.filter pyKeep).map repSpace).filter pyKeep = (l.filter pyKeep).map repSpace := by
      apply List.filter_eq_self.mpr
      intro c hc
      obtain ⟨c0, hc0, rfl⟩ := List.mem_map.mp hc
      exact pyKeep_repSpace (List.mem_filter.mp hc0).2
    have hmap : ((l.filter pyKeep).map repSpace).map repSpace = (l.filter pyKeep).map repSpace := by
      rw [List.map_map, show repSpace ∘ repSpace = repSpace from funext repSpace_repSpace]
    simp [msfList, hfilter, hmap, hrep]

/-- C3: make_safe_filename is idempotent: applying it twice equals applying
it once, for every input string. -/
theorem make_safe_filename_idempotent (s : String) :
    make_safe_filename (make_safe_filename s) = make_safe_filename s :=
  congrArg String.mk (msfList_idem s.data)

/-- C2 counterexample: on the input built of the letter a, two spaces and
the letter b, the code maps each space to its own underscore while the
claimed description collapses the whitespace run to a single underscore;
and on a lone underscore the code keeps it while the claimed description
returns the token audio. -/
theorem make_safe_filename_cx :
    make_safe_filename "a  b" = "a__b" ∧ sanitizeSpecC2 "a  b" = "a_b" ∧
      make_safe_filename "a  b" ≠ sanitizeSpecC2 "a  b" ∧
      make_safe_filename "_" = "_" ∧ sanitizeSpecC2 "_" = "audio" := by decide

/-- C2 (amended): make_safe_filename keeps word characters (alphanumeric or
underscore), whitespace, dots and dashes, deletes everything else, replaces
each space character individually by an underscore leaving other whitespace
unchanged, and returns the token audio exactly when the intermediate result
is empty; the two concrete examples of the claim hold. -/
theorem make_safe_filename_amended (s : String) :
    make_safe_filename s = sanitizeAmendC2 s ∧ make_safe_filename "" = "audio" ∧
      make_safe_filename "My Song!.mp3" = "My_Song.mp3" := by
  refine ⟨?_, by decide, by decide⟩
  unfold make_safe_filename sanitizeAmendC2 msfList
  simp only [show (fun c => (c.isAlphanum || c == '_') || isPySpace c || c == '.' || c == '-') = pyKeep from rfl,
    show (fun c : Char => if c == ' ' then '_' else c) = repSpace from rfl]
  by_cases h : ((s.data.filter pyKeep).map repSpace).isEmpty <;> simp [h]

/-- C6 counterexample: for a title containing a dot and spaces the handler
filename (which deletes dots and keeps inner spaces) differs from the
filename the claim describes via the section 4.1 sanitizer. -/
theorem target_filename_cx :
    targetFilename infoC6 "ts" = "My Songmp3 - The Band - abc123.wav" ∧
      targetFilename infoC6 "ts" ≠
        make_safe_filename "My Song!.mp3" ++ " - " ++ make_safe_filename "The Band" ++ " - " ++
          "abc123" ++ ".wav" ∧
      make_safe_filename "My Song!.mp3" ++ " - " ++ make_safe_filename "The Band" ++ " - " ++
          "abc123" ++ ".wav" = "My_Song.mp3 - The_Band - abc123.wav" := by decide

/-- C6 (amended): the target filename joins the cleaned title, the cleaned
uploader and the raw id with the separator " - " and the suffix ".wav",
where cleaning deletes every character that is not a word character,
whitespace or a dash (dots included) and trims surrounding whitespace; the
section 4.1 sanitizer is not used. -/
theorem target_filename_amended (info : ExtractInfo) (ts : String) :
    targetFilename info ts =
      cleanSpecC6 (info.title.getD "audio") ++ " - " ++ cleanSpecC6 (info.uploader.getD "unknown") ++
        " - " ++ info.id.getD ts ++ ".wav" := rfl

/-- Helper: case-insensitive prefix matching splits over an append. -/
theorem ciPrefix_append (p l m : List Char) :
    ciPrefix p (l ++ m) = (ciPrefix (p.take l.length) l && ciPrefix (p.drop l.length) m) := by
  induction l generalizing p with
  | nil => simp [ciPrefix]
  | cons c t ih =>
    cases p with
    | nil => simp [ciPrefix]
    | cons a q => simp [ciPrefix, ih, Bool.and_assoc]

/-- Helper: a literal matches itself case-insensitively at the front. -/
theorem ciPrefix_self_append (p m : List Char) : ciPrefix p (p ++ m) = true := by
  induction p with
  | nil => rfl
  | cons c t ih => simp [ciPrefix, ih]

/-- Helper: takeWhile keeps a list all of whose elements satisfy the
predicate. -/
theorem takeWhile_of_all {α : Type} {p : α → Bool} {l : List α} (h : ∀ c ∈ l, p c = true) :
    l.takeWhile p = l := by
  induction l with
  | nil => rfl
  | cons c t ih =>
    rw [List.takeWhile_cons, if_pos (h c (List.mem_cons_self c t))]
    rw [ih fun x hx => h x (List.mem_cons_of_mem c hx)]

/-- Helper: every alternative of pattern 1 begins with the letter y, so no
alternative matches at a position whose character does not lower to y. -/
theorem matchP1At_cons_not_y {c : Char} (t : List Char) (h : c.toLower ≠ 'y') :
    matchP1At (c :: t) = none := by
  simp [matchP1At, tryCIPrefix, pWatch, pShort, pEmbed, pV, pWatchSlash, ciPrefix, Ne.symm h]

/-- Helper: the pattern 1 search skips any leading block containing no
character that lowers to y. -/
theorem searchP1_skip {l : List Char} (s : List Char) (h : ∀ c ∈ l, c.toLower ≠ 'y') :
    searchP1 (l ++ s) = searchP1 s := by
  induction l with
  | nil => rfl
  | cons c t ih =>
    have h1 : matchP1At (c :: (t ++ s)) = none :=
      matchP1At_cons_not_y _ (h c (List.mem_cons_self c t))
    calc searchP1 ((c :: t) ++ s) = searchP1 (t ++ s) := by simp [searchP1, h1]
    _ = searchP1 s := ih fun x hx => h x (List.mem_cons_of_mem c hx)

/-- Helper: a position where pattern 1 matches ends the search. -/
theorem searchP1_cons_match {c : Char} {t cap : List Char} (h : matchP1At (c :: t) = some cap) :
    searchP1 (c :: t) = some cap := by
  simp [searchP1, h]

/-- Helper: pattern 1 on the canonical watch URL shape. -/
theorem searchP1_watch (idc : List Char) (h : ∀ c ∈ idc, goodCap c = true) :
    searchP1 ("https://www.".data ++ (pWatch ++ idc)) = some idc := by
  rw [searchP1_skip _ (by decide)]
  have hci : ciPrefix pWatch (pWatch ++ idc) = true := ciPrefix_self_append pWatch idc
  have hmat : matchP1At (pWatch ++ idc) = some idc := by
    simp [matchP1At, tryCIPrefix, hci, List.drop_left, takeWhile_of_all h]
  exact searchP1_cons_match hmat

/-- Helper: pattern 1 on the embed URL shape. -/
theorem searchP1_embed (idc : List Char) (h : ∀ c ∈ idc, goodCap c = true) :
    searchP1 ("https://www.".data ++ (pEmbed ++ idc)) = some idc := by
  rw [searchP1_skip _ (by decide)]
  have h1 : ciPrefix pWatch (pEmbed ++ idc) = false := by
    rw [ciPrefix_append, show ciPrefix (pWatch.take pEmbed.length) pEmbed = false from by decide]
    simp
  have h2 : ciPrefix pShort (pEmbed ++ idc) = false := by
    rw [ciPrefix_append, show ciPrefix (pShort.take pEmbed.length) pEmbed = false from by decide]
    simp
  have h3 : ciPrefix pEmbed (pEmbed ++ idc) = true := ciPrefix_self_append pEmbed idc
  have hmat : matchP1At (pEmbed ++ idc) = some idc := by
    simp [matchP1At, tryCIPrefix, h1, h2, h3, List.drop_left, takeWhile_of_all h]
  exact searchP1_cons_match hmat

/-- Helper: pattern 1 on the short-link URL shape. -/
theorem searchP1_short (idc : List Char) (h : ∀ c ∈ idc, goodCap c = true) :
    searchP1 ("https://".data ++ (pShort ++ idc)) = some idc := by
  rw [searchP1_skip _ (by decide)]
  have h1 : ciPrefix pWatch (pShort ++ idc) = false := by
    rw [ciPrefix_append, show ciPrefix (pWatch.take pShort.length) pShort = false from by decide]
    simp
  have h2 : ciPrefix pShort (pShort ++ idc) = true := ciPrefix_self_append pShort idc
  have hmat : matchP1At (pShort ++ idc) = some idc := by
    simp [matchP1At, tryCIPrefix, h1, h2, List.drop_left, takeWhile_of_all h]
  exact searchP1_cons_match hmat

/-- Helper: pattern 1 on the upper-case watch URL shape, exercising
case-insensitive matching. -/
theorem searchP1_upper (idc : List Char) (h : ∀ c ∈ idc, goodCap c = true) :
    searchP1 ("HTTPS://WWW.".data ++ ("YOUTUBE.COM/WATCH?V=".data ++ idc)) = some idc := by
  rw [searchP1_skip _ (by decide)]
  have h1 : ciPrefix pWatch ("YOUTUBE.COM/WATCH?V=".data ++ idc) = true := by
    rw [ciPrefix_append,
      show ciPrefix (pWatch.take ("YOUTUBE.COM/WATCH?V=".data).length) "YOUTUBE.COM/WATCH?V=".data = true from by decide,
      show pWatch.drop ("YOUTUBE.COM/WATCH?V=".data).length = ([] : List Char) from by decide]
    simp [ciPrefix]
  have hmat : matchP1At ("YOUTUBE.COM/WATCH?V=".data ++ idc) = some idc := by
    simp only [matchP1At, tryCIPrefix, h1, if_true]
    rw [show pWatch.length = ("YOUTUBE.COM/WATCH?V=".data).length from by decide, List.drop_left,
      takeWhile_of_all h]
  exact searchP1_cons_match hmat

/-- C9: extract_video_id returns the same identifier for the watch, embed
and short-link URL shapes referencing the same id, also when the URL is
upper-case (the matching is case-insensitive while the returned id keeps
its case), and returns none for a string matching no pattern; the
embedding is a total function, so no input can make it throw. -/
theorem extract_video_id_shapes (id : String) (h : ∀ c ∈ id.data, goodCap c = true) :
    extract_video_id ("https://www.youtube.com/watch?v=" ++ id) = some id ∧
      extract_video_id ("https://www.youtube.com/embed/" ++ id) = some id ∧
      extract_video_id ("https://youtu.be/" ++ id) = some id ∧
      extract_video_id ("HTTPS://WWW.YOUTUBE.COM/WATCH?V=" ++ id) = some id ∧
      extract_video_id "not a url" = none := by
  refine ⟨?_, ?_, ?_, ?_, by decide⟩
  · have hd : ("https://www.youtube.com/watch?v=" ++ id).data =
        "https://www.".data ++ (pWatch ++ id.data) := by
      show "https://www.youtube.com/watch?v=".data ++ id.data = _
      rw [show "https://www.youtube.com/watch?v=".data = "https://www.".data ++ pWatch from by decide,
        List.append_assoc]
    unfold extract_video_id
    rw [hd, searchP1_watch id.data h]
  · have hd : ("https://www.youtube.com/embed/" ++ id).data =
        "https://www.".data ++ (pEmbed ++ id.data) := by
      show "https://www.youtube.com/embed/".data ++ id.data = _
      rw [show "https://www.youtube.com/embed/".data = "https://www.".data ++ pEmbed from by decide,
        List.append_assoc]
    unfold extract_video_id
    rw [hd, searchP1_embed id.data h]
  · have hd : ("https://youtu.be/" ++ id).data = "https://".data ++ (pShort ++ id.data) := by
      show "https://youtu.be/".data ++ id.data = _
      rw [show "https://youtu.be/".data = "https://".data ++ pShort from by decide,
        List.append_assoc]
    unfold extract_video_id
    rw [hd, searchP1_short id.data h]
  · have hd : ("HTTPS://WWW.YOUTUBE.COM/WATCH?V=" ++ id).data =
        "HTTPS://WWW.".data ++ ("YOUTUBE.COM/WATCH?V=".data ++ id.data) := by
      show "HTTPS://WWW.YOUTUBE.COM/WATCH?V=".data ++ id.data = _
      rw [show "HTTPS://WWW.YOUTUBE.COM/WATCH?V=".data =
        "HTTPS://WWW.".data ++ "YOUTUBE.COM/WATCH?V=".data from by decide, List.append_assoc]
    unfold extract_video_id
    rw [hd, searchP1_upper id.data h]

/-- Witness for C9 at a concrete video id. -/
theorem extract_video_id_shapes_witness :
    extract_video_id ("https://www.youtube.com/watch?v=" ++ "dQw4w9WgXcQ") = some "dQw4w9WgXcQ" ∧
      extract_video_id ("https://www.youtube.com/embed/" ++ "dQw4w9WgXcQ") = some "dQw4w9WgXcQ" ∧
      extract_video_id ("https://youtu.be/" ++ "dQw4w9WgXcQ") = some "dQw4w9WgXcQ" ∧
      extract_video_id ("HTTPS://WWW.YOUTUBE.COM/WATCH?V=" ++ "dQw4w9WgXcQ") = some "dQw4w9WgXcQ" ∧
      extract_video_id "not a url" = none :=
  extract_video_id_shapes "dQw4w9WgXcQ" (by decide)

/-- Helper: find? skips a head on which the predicate is false. -/
theorem find?_cons_false {α : Type} {p : α → Bool} {x : α} {l : List α} (h : p x = false) :
    (x :: l).find? p = l.find? p := by
  simp [List.find?, h]

/-- Helper: find? stops at a head on which the predicate is true. -/
theorem find?_cons_true {α : Type} {p : α → Bool} {x : α} {l : List α} (h : p x = true) :
    (x :: l).find? p = some x := by
  simp [List.find?, h]

/-- Helper: the strict-maximum loop leaves its accumulator unchanged when
the remaining formats have no known audio bitrate. -/
theorem loop1_no_known (l : List FmtInfo) (bf : Option FmtInfo) (m : Int)
    (h : ∀ f ∈ l, isAudioOnly f = true → f.abr = none) :
    loop1 l bf m = (bf, m) := by
  induction l generalizing bf m with
  | nil => rfl
  | cons x rest ih =>
    by_cases hx : isAudioOnly x = true
    · have habr : x.abr = none := h x (List.mem_cons_self x rest) hx
      simp only [loop1, hx, if_true, habr]
      exact ih bf m fun f hf hfa => h f (List.mem_cons_of_mem x hf) hfa
    · rw [show loop1 (x :: rest) bf m = loop1 rest bf m from by simp [loop1, hx]]
      exact ih bf m fun f hf hfa => h f (List.mem_cons_of_mem x hf) hfa

/-- Helper: running the strict-maximum loop from a selected format with its
known bitrate yields a selection whose bitrate bounds every known audio
bitrate of the list, and which is the FIRST list element attaining the
final maximum whenever the initial accumulator is beaten. -/
theorem loop1_some (l : List FmtInfo) (f : FmtInfo) (a : Int) (hf : f.abr = some a) :
    ∃ g M, loop1 l (some f) a = (some g, M) ∧ g.abr = some M ∧ a ≤ M ∧
      (∀ x ∈ l, isAudioOnly x = true → ∀ b, x.abr = some b → b ≤ M) ∧
      (g = f ∨ (a < M ∧ l.find? (fun x => isAudioOnly x && (x.abr == some M)) = some g)) := by
  induction l generalizing f a with
  | nil => exact ⟨f, a, rfl, hf, le_refl a, by simp, Or.inl rfl⟩
  | cons x rest ih =>
    by_cases hx : isAudioOnly x = true
    · cases habr : x.abr with
      | none =>
        obtain ⟨g, M, h1, h2, h3, h4, h5⟩ := ih f a hf
        refine ⟨g, M, ?_, h2, h3, ?_, ?_⟩
        · simpa [loop1, hx, habr] using h1
        · intro y hy hya b hb
          rcases List.mem_cons.mp hy with rfl | hy2
          · rw [habr] at hb; cases hb
          · exact h4 y hy2 hya b hb
        · rcases h5 with h5 | ⟨hlt, hfind⟩
          · exact Or.inl h5
          · refine Or.inr ⟨hlt, ?_⟩
            rw [find?_cons_false (by rw [hx, habr]; simp), hfind]
      | some b =>
        by_cases hgt : b > a
        · obtain ⟨g, M, h1, h2, h3, h4, h5⟩ := ih x b habr
          refine ⟨g, M, ?_, h2, le_of_lt (lt_of_lt_of_le hgt h3), ?_, ?_⟩
          · simpa [loop1, hx, habr, hgt] using h1
          · intro y hy hya c hc
            rcases List.mem_cons.mp hy with rfl | hy2
            · rw [habr] at hc
              injection hc with hc
              subst hc
              exact h3
            · exact h4 y hy2 hya c hc
          · refine Or.inr ⟨lt_of_lt_of_le hgt h3, ?_⟩
            rcases h5 with rfl | ⟨hbM, hfind⟩
            · have hMb : b = M := by
                rw [habr] at h2
                injection h2
              rw [find?_cons_true (by rw [hx, habr, hMb]; simp)]
            · rw [find?_cons_false ?_, hfind]
              rw [hx, habr]
              simp only [Bool.true_and]
              exact beq_eq_false_iff_ne.mpr fun he => (ne_of_lt hbM) (Option.some.inj he)
        · obtain ⟨g, M, h1, h2, h3, h4, h5⟩ := ih f a hf
          refine ⟨g, M, ?_, h2, h3, ?_, ?_⟩
          · simpa [loop1, hx, habr, hgt] using h1
          · intro y hy hya c hc
            rcases List.mem_cons.mp hy with rfl | hy2
            · rw [habr] at hc
              injection hc with hc
              subst hc
              exact le_trans (le_of_not_lt hgt) h3
            · exact h4 y hy2 hya c hc
          · rcases h5 with h5 | ⟨hlt, hfind⟩
            · exact Or.inl h5
            · refine Or.inr ⟨hlt, ?_⟩
              rw [find?_cons_false ?_, hfind]
              rw [hx, habr]
              simp only [Bool.true_and]
              refine beq_eq_false_iff_ne.mpr fun he => ?_
              have : b = M := Option.some.inj he
              have : b ≤ a := le_of_not_lt hgt
              omega
    · obtain ⟨g, M, h1, h2, h3, h4, h5⟩ := ih f a hf
      refine ⟨g, M, ?_, h2, h3, ?_, ?_⟩
      · simp only [loop1] at h1 ⊢
        rw [if_neg (by simpa using hx)]
        exact h1
      · intro y hy hya b hb
        rcases List.mem_cons.mp hy with rfl | hy2
        · exact absurd hya hx
        · exact h4 y hy2 hya b hb
      · rcases h5 with h5 | ⟨hlt, hfind⟩
        · exact Or.inl h5
        · refine Or.inr ⟨hlt, ?_⟩
          rw [find?_cons_false ?_, hfind]
          rw [show isAudioOnly x = false from by simpa using hx]
          simp

/-- Helper: from the empty accumulator the loop selects the first format
attaining the maximal known audio bitrate, whenever some audio-only format
reports a bitrate. -/
theorem loop1_none (l : List FmtInfo)
    (h : ∃ f ∈ l, isAudioOnly f = true ∧ f.abr.isSome = true) :
    ∃ g M, loop1 l none 0 = (some g, M) ∧ g.abr = some M ∧
      (∀ x ∈ l, isAudioOnly x = true → ∀ b, x.abr = some b → b ≤ M) ∧
      l.find? (fun x => isAudioOnly x && (x.abr == some M)) = some g := by
  induction l with
  | nil => simp at h
  | cons x rest ih =>
    by_cases hx : isAudioOnly x = true
    · cases habr : x.abr with
      | some b =>
        obtain ⟨g, M, h1, h2, h3, h4, h5⟩ := loop1_some rest x b habr
        refine ⟨g, M, ?_, h2, ?_, ?_⟩
        · simpa [loop1, hx, habr] using h1
        · intro y hy hya c hc
          rcases List.mem_cons.mp hy with rfl | hy2
          · rw [habr] at hc
            injection hc with hc
            subst hc
            exact h3
          · exact h4 y hy2 hya c hc
        · rcases h5 with rfl | ⟨hbM, hfind⟩
          · have hMb : b = M := by
              rw [habr] at h2
              injection h2
            rw [find?_cons_true (by rw [hx, habr, hMb]; simp)]
          · rw [find?_cons_false ?_, hfind]
            rw [hx, habr]
            simp only [Bool.true_and]
            exact beq_eq_false_iff_ne.mpr fun he => (ne_of_lt hbM) (Option.some.inj he)
      | none =>
        have h2 : ∃ f ∈ rest, isAudioOnly f = true ∧ f.abr.isSome = true := by
          rcases h with ⟨f, hfm, hfa, hfs⟩
          rcases List.mem_cons.mp hfm with rfl | hfm2
          · rw [habr] at hfs
            cases hfs
          · exact ⟨f, hfm2, hfa, hfs⟩
        obtain ⟨g, M, h1, h2, h3, h4⟩ := ih h2
        refine ⟨g, M, by simpa [loop1, hx, habr] using h1, h2, ?_, ?_⟩
        · intro y hy hya c hc
          rcases List.mem_cons.mp hy with rfl | hy2
          · rw [habr] at hc
            cases hc
          · exact h3 y hy2 hya c hc
        · rw [find?_cons_false (by rw [hx, habr]; simp), h4]
    · have h2 : ∃ f ∈ rest, isAudioOnly f = true ∧ f.abr.isSome = true := by
        rcases h with ⟨f, hfm, hfa, hfs⟩
        rcases List.mem_cons.mp hfm with rfl | hfm2
        · exact absurd hfa hx
        · exact ⟨f, hfm2, hfa, hfs⟩
      obtain ⟨g, M, h1, h2, h3, h4⟩ := ih h2
      refine ⟨g, M, ?_, h2, ?_, ?_⟩
      · simp only [loop1] at h1 ⊢
        rw [if_neg (by simpa using hx)]
        exact h1
      · intro y hy hya c hc
        rcases List.mem_cons.mp hy with rfl | hy2
        · exact absurd hya hx
        · exact h3 y hy2 hya c hc
      · rw [find?_cons_false ?_, h4]
        rw [show isAudioOnly x = false from by simpa using hx]
        simp

/-- C1: for every format list, when at least one audio-only format reports
a bitrate the selector picks an audio-only format whose reported bitrate
bounds every known audio bitrate in the list; when no audio-only format
reports a bitrate it returns exactly the first audio-only format in listed
order (none when there is no audio-only format at all). -/
theorem best_audio_selection (fmts : List FmtInfo) :
    ((∃ f ∈ fmts, isAudioOnly f = true ∧ f.abr.isSome = true) →
      ∃ g M, (findBestAudio fmts).1 = some g ∧ g ∈ fmts ∧ isAudioOnly g = true ∧
        g.abr = some M ∧ ∀ x ∈ fmts, isAudioOnly x = true → ∀ b, x.abr = some b → b ≤ M)
    ∧ ((∀ f ∈ fmts, isAudioOnly f = true → f.abr = none) →
      (findBestAudio fmts).1 = fmts.find? isAudioOnly) := by
  constructor
  · intro h
    obtain ⟨g, M, h1, h2, h3, h4⟩ := loop1_none fmts h
    have hmem : g ∈ fmts := List.mem_of_find?_eq_some h4
    have hpred := List.find?_some h4
    simp only [Bool.and_eq_true] at hpred
    refine ⟨g, M, ?_, hmem, hpred.1, h2, h3⟩
    simp [findBestAudio, h1]
  · intro h
    have h1 := loop1_no_known fmts none 0 h
    cases hf : fmts.find? isAudioOnly with
    | some f => simp [findBestAudio, h1, hf]
    | none => simp [findBestAudio, h1, hf]

/-- Witness for C1: on the spec example list (bitrates 128, 256, null) part
one applies, and on an all-null list with a leading video format part two
applies. -/
theorem best_audio_selection_witness :
    (∃ g M, (findBestAudio exC1a).1 = some g ∧ g ∈ exC1a ∧ isAudioOnly g = true ∧
        g.abr = some M ∧ ∀ x ∈ exC1a, isAudioOnly x = true → ∀ b, x.abr = some b → b ≤ M)
    ∧ (findBestAudio exC1b).1 = exC1b.find? isAudioOnly :=
  ⟨(best_audio_selection exC1a).1 (by decide), (best_audio_selection exC1b).2 (by decide)⟩

/-- C10: when some audio-only format reports a bitrate, the selected format
is exactly the FIRST format in listed order attaining the maximal known
audio bitrate M — the comparison is strict, so a later format with an equal
bitrate never replaces an earlier one. -/
theorem best_audio_tie_break (fmts : List FmtInfo)
    (h : ∃ f ∈ fmts, isAudioOnly f = true ∧ f.abr.isSome = true) :
    ∃ M, (findBestAudio fmts).1 = fmts.find? (fun x => isAudioOnly x && (x.abr == some M)) ∧
      (∀ x ∈ fmts, isAudioOnly x = true → ∀ b, x.abr = some b → b ≤ M) := by
  obtain ⟨g, M, h1, h2, h3, h4⟩ := loop1_none fmts h
  refine ⟨M, ?_, h3⟩
  rw [show (findBestAudio fmts).1 = some g from by simp [findBestAudio, h1], h4]

/-- Witness for C10 on a list carrying a tie at the maximal bitrate. -/
theorem best_audio_tie_break_witness :
    ∃ M, (findBestAudio exC10).1 = exC10.find? (fun x => isAudioOnly x && (x.abr == some M)) ∧
      (∀ x ∈ exC10, isAudioOnly x = true → ∀ b, x.abr = some b → b ≤ M) :=
  best_audio_tie_break exC10 (by decide)

/-- C4 (amended): the validation step returns 400 with the error envelope
exactly when the body is missing, is the falsy empty object, or lacks a
url key; a url that is blank after trimming passes validation — the
stripped value is handed to the extractor, so the response is then decided
by the extraction outcome (a generic extractor exception, for instance,
gives 500). -/
theorem download_validation (env : Env) (d : List (String × String)) (u m : String) :
    download_audio env none = errResp 400 "No URL provided"
    ∧ download_audio env (some []) = errResp 400 "No URL provided"
    ∧ (List.lookup "url" d = none → download_audio env (some d) = errResp 400 "No URL provided")
    ∧ (env.extractResult (pyStrip u) = Except.error (PyExc.otherError m) →
        download_audio env (some [("url", u)]) =
          errResp 500 "An unexpected error occurred. Please try again later.") := by
  refine ⟨rfl, rfl, ?_, ?_⟩
  · intro h
    cases d with
    | nil => rfl
    | cons p rest => simp [download_audio, h]
  · intro h
    simp [download_audio, List.lookup, h, handleExc]

/-- C4 counterexample: posting the object whose url field is two spaces,
against an extractor that raises a generic exception on the stripped empty
URL, yields 500 — not the 400 the claim demands for a url that is empty
after trimming. -/
theorem download_validation_cx :
    download_audio envC4 (some [("url", "  ")]) =
        errResp 500 "An unexpected error occurred. Please try again later." ∧
      (download_audio envC4 (some [("url", "  ")])).status ≠ 400 := by decide

/-- Witness for C4 at the concrete environment and request bodies. -/
theorem download_validation_witness :
    download_audio envC4 (some [("x", "y")]) = errResp 400 "No URL provided" ∧
      download_audio envC4 (some [("url", "  ")]) =
        errResp 500 "An unexpected error occurred. Please try again later." :=
  ⟨(download_validation envC4 [("x", "y")] "  " "boom").2.2.1 (by decide),
    (download_validation envC4 [("x", "y")] "  " "boom").2.2.2 rfl⟩

/-- C5: a DownloadError raised by metadata extraction or by the download
step is classified by message content — 403 when the message mentions a
private video, else 404 for an unavailable video, else 400 for an
unsupported URL, else a generic 500 — and any non-DownloadError exception
yields the generic 500 message. -/
theorem download_error_mapping (env : Env) (u m : String) (info : ExtractInfo) :
    (env.extractResult (pyStrip u) = Except.error (PyExc.downloadError m) →
      download_audio env (some [("url", u)]) = classifyResp m)
    ∧ (env.extractResult (pyStrip u) = Except.ok info →
        (findBestAudio info.formats).1.isSome = true →
        env.downloadResult = some (PyExc.downloadError m) →
        download_audio env (some [("url", u)]) = classifyResp m)
    ∧ (containsSub "Private video" m = true → (classifyResp m).status = 403)
    ∧ (containsSub "Private video" m = false → containsSub "Video unavailable" m = true →
        (classifyResp m).status = 404)
    ∧ (containsSub "Private video" m = false → containsSub "Video unavailable" m = false →
        containsSub "Unsupported URL" m = true → (classifyResp m).status = 400)
    ∧ (containsSub "Private video" m = false → containsSub "Video unavailable" m = false →
        containsSub "Unsupported URL" m = false → (classifyResp m).status = 500)
    ∧ (env.extractResult (pyStrip u) = Except.error (PyExc.otherError m) →
        download_audio env (some [("url", u)]) =
          errResp 500 "An unexpected error occurred. Please try again later.") := by
  refine ⟨?_, ?_, ?_, ?_, ?_, ?_, ?_⟩
  · intro h
    simp [download_audio, List.lookup, h, handleExc]
  · intro h1 h2 h3
    rcases hfb : findBestAudio info.formats with ⟨bf, mx⟩
    cases bf with
    | none => rw [hfb] at h2; simp at h2
    | some b => simp [download_audio, List.lookup, h1, hfb, h3, handleExc]
  · intro h
    simp [classifyResp, h, errResp]
  · intro h1 h2
    simp [classifyResp, h1, h2, errResp]
  · intro h1 h2 h3
    simp [classifyResp, h1, h2, h3, errResp]
  · intro h1 h2 h3
    simp [classifyResp, h1, h2, h3, errResp]
  · intro h
    simp [download_audio, List.lookup, h, handleExc]

/-- Witness for C5: concrete environments and messages exercising each
classification branch and both raise sites. -/
theorem download_error_mapping_witness :
    download_audio envC5a (some [("url", "u")]) = classifyResp "ERROR: Private video" ∧
      (classifyResp "ERROR: Private video").status = 403 ∧
      (classifyResp "ERROR: Video unavailable").status = 404 ∧
      (classifyResp "ERROR: Unsupported URL: abc").status = 400 ∧
      (classifyResp "ERROR: timed out").status = 500 ∧
      download_audio envC5b (some [("url", "u")]) = classifyResp "ERROR: Video unavailable" ∧
      download_audio envC4 (some [("url", "u")]) =
        errResp 500 "An unexpected error occurred. Please try again later." :=
  ⟨(download_error_mapping envC5a "u" "ERROR: Private video" infoW).1 rfl,
    (download_error_mapping envC5a "u" "ERROR: Private video" infoW).2.2.1 (by decide),
    (download_error_mapping envC5a "u" "ERROR: Video unavailable" infoW).2.2.2.1 (by decide)
      (by decide),
    (download_error_mapping envC5a "u" "ERROR: Unsupported URL: abc" infoW).2.2.2.2.1 (by decide)
      (by decide) (by decide),
    (download_error_mapping envC5a "u" "ERROR: timed out" infoW).2.2.2.2.2.1 (by decide)
      (by decide) (by decide),
    (download_error_mapping envC5b "u" "ERROR: Video unavailable" infoW).2.1 rfl (by decide) rfl,
    (download_error_mapping envC4 "u" "boom" infoW).2.2.2.2.2.2 rfl⟩

/-- C7 counterexample: a fully successful request returns a body with SIX
fields — the five the claim lists plus quality — so the body does not
consist of exactly the claimed five fields. -/
theorem success_response_cx :
    download_audio envC7 (some [("url", "u")]) =
      ⟨200, [("filename", JVal.s "T - U - vid.wav"), ("title", JVal.s "T"),
        ("uploader", JVal.s "U"), ("duration", JVal.n 10), ("quality", JVal.s "128kbps"),
        ("size_mb", JVal.dec2 100)]⟩ ∧
      (download_audio envC7 (some [("url", "u")])).body.map Prod.fst ≠
        ["filename", "title", "uploader", "duration", "size_mb"] := by decide

/-- C7 (amended): on a fully successful request the handler returns 200
with the six-field body filename, title, uploader, duration, quality and
size_mb, in this order, where size_mb is the byte size divided by 1048576
and rounded to two decimals (stored as hundredths) and quality is the
selected-bitrate string. -/
theorem success_response (env : Env) (u : String) (info : ExtractInfo) (bf : FmtInfo)
    (mx : Int) (f : String) (bytes : Nat)
    (h1 : env.extractResult (pyStrip u) = Except.ok info)
    (h2 : findBestAudio info.formats = (some bf, mx))
    (h3 : env.downloadResult = none)
    (h4 : scanOutName env.listdir (targetFilename info env.timestamp) = f)
    (h5 : env.getsize f = some bytes) :
    download_audio env (some [("url", u)]) = successBody info mx f bytes ∧
      (successBody info mx f bytes).status = 200 ∧
      (successBody info mx f bytes).body.map Prod.fst =
        ["filename", "title", "uploader", "duration", "quality", "size_mb"] ∧
      List.lookup "size_mb" (successBody info mx f bytes).body =
        some (JVal.dec2 (roundCentsHalfEven (bytes * 100) (1024 * 1024))) := by
  refine ⟨?_, rfl, rfl, rfl⟩
  simp [download_audio, List.lookup, h1, h2, h3, h4, h5]

/-- Witness for C7 at the concrete successful environment. -/
theorem success_response_witness :
    download_audio envC7 (some [("url", "u")]) = successBody infoW 128 "T - U - vid.wav" 1048576 :=
  (success_response envC7 "u" infoW ⟨"140", some "none", some 128⟩ 128 "T - U - vid.wav" 1048576
    rfl (by decide) rfl (by decide) rfl).1

/-- C8 counterexample: a traversal name that resolves to an existing file
outside the scratch directory passes the isfile guard (so no 404), and the
send primitive then rejects it, which the generic except clause turns into
the 500 text response — not the 404 the claim demands; in particular the
guard did not resolve the name strictly under the scratch directory. -/
theorem download_file_cx :
    download_file fsC8 dirC8 "../../etc/passwd" = FileResp.serveError ∧
      download_file fsC8 dirC8 "../../etc/passwd" ≠ FileResp.notFound := by decide

/-- C8 (amended): the endpoint returns 404 exactly when the plainly joined
path (an absolute name replacing the directory) is not an existing file;
an existing file reached through a traversal name (absolute or containing
a double-dot segment) yields the 500 text response, because the rejection
of the send primitive is caught by the generic except clause; an existing
file under a safe name is served as an attachment whose suggested name is
make_safe_filename of the requested name. -/
theorem download_file_behavior (fs : List (List String)) (dir : List String) (name : String) :
    (isfile fs (joinSegs dir name) = false → download_file fs dir name = FileResp.notFound)
    ∧ (isfile fs (joinSegs dir name) = true → isTraversal name = true →
        download_file fs dir name = FileResp.serveError)
    ∧ (isfile fs (joinSegs dir name) = true → isTraversal name = false →
        download_file fs dir name =
          FileResp.attachment (dir ++ splitSegs name) (make_safe_filename name)) := by
  refine ⟨?_, ?_, ?_⟩
  · intro h
    simp [download_file, h]
  · intro h ht
    simp [download_file, h, send_from_directory, ht]
  · intro h ht
    have habs : pathIsAbs name = false := by
      by_cases hb : pathIsAbs name = true
      · exfalso
        unfold isTraversal at ht
        rw [hb] at ht
        simp at ht
      · simpa using hb
    have hj : joinSegs dir name = dir ++ splitSegs name := by
      unfold joinSegs
      rw [habs]
      simp
    rw [hj] at h
    simp [download_file, send_from_directory, ht, hj, h]

/-- Witness for C8: a missing name, a traversal name reaching an outside
file, and a safe existing name, all against the concrete filesystem. -/
theorem download_file_behavior_witness :
    download_file fsC8 dirC8 "missing.wav" = FileResp.notFound ∧
      download_file fsC8 dirC8 "../../etc/passwd" = FileResp.serveError ∧
      download_file fsC8 dirC8 "a.wav" =
        FileResp.attachment (dirC8 ++ splitSegs "a.wav") (make_safe_filename "a.wav") :=
  ⟨(download_file_behavior fsC8 dirC8 "missing.wav").1 (by decide),
    (download_file_behavior fsC8 dirC8 "../../etc/passwd").2.1 (by decide) (by decide),
    (download_file_behavior fsC8 dirC8 "a.wav").2.2 (by decide) (by decide)⟩
